import Mathlib

/-!
Verification development for the ldtp TCP file server / downloader client.

The server (`src/Server/server.py`) exposes a directory tree over a raw TCP
stream: newline-terminated JSON command frames (`LIST`, `DOWNLOAD`), a
`SIZE:<n>` header followed by the raw file body for downloads, and a
trailing `END\n` marker.  The client (`src/Client/client.py`) drives one
download per `Downloader`, tracking progress and cooperative cancellation.

The definitions below are shallow embeddings of the Python functions, with
bytes as `Nat` (each < 256 in intended use), paths as `/`-separated strings
(the POSIX rendering of `os.path`; the one separator-dependent example from
the spec, `D:\share` vs `D:\share-other`, becomes `/share` vs
`/share-other`), and the filesystem as an explicit association list.
-/

/-! ## Path model: `os.path` primitives used by `safe_join` (server.py lines 24-29)

Paths are `/`-separated strings.  All paths reaching `normpath`/`abspath`
in `safe_join` are absolute (the configured root is absolute and
`os.path.join` of an absolute base stays absolute), so `abspath` needs no
working-directory argument and equals `normpath`.
-/

/-- Split a character list at every `/`, keeping empty components (the
behaviour of splitting a path string on the separator). -/
def splitChars : List Char → List (List Char)
  | [] => [[]]
  | c :: cs =>
    match splitChars cs with
    | [] => [[]]
    | g :: gs => if c = '/' then [] :: g :: gs else (c :: g) :: gs

/-- The `/`-separated components of a path string. -/
def componentsRaw (s : String) : List String :=
  (splitChars s.data).map String.mk

/-- Normalisation of the component list of an absolute path, as
`os.path.normpath` performs it: drop empty and `.` components, let `..`
remove the previous component (at the root, `..` is dropped, matching
`normpath('/..') = '/'`). -/
def normAbs (comps : List String) : List String :=
  comps.foldl
    (fun acc c =>
      if c = "" ∨ c = "." then acc
      else if c = ".." then acc.dropLast
      else acc ++ [c])
    []

/-- Re-join normalised components below the root separator. -/
def joinComponents : List String → String
  | [] => ""
  | [c] => c
  | c :: cs => c ++ "/" ++ joinComponents cs

/-- `os.path.normpath` for absolute paths (the only inputs it receives in
`safe_join`). -/
def normpath (s : String) : String :=
  "/" ++ joinComponents (normAbs (componentsRaw s))

/-- `os.path.abspath` for absolute paths: the working directory is
irrelevant, so it is plain normalisation. -/
def abspath (s : String) : String := normpath s

/-- `str.startswith`: character-wise prefix test. -/
def strStartsWith (s pre : String) : Bool := pre.data.isPrefixOf s.data

/-- `str.endswith`: character-wise suffix test. -/
def strEndsWith (s suf : String) : Bool := suf.data.isSuffixOf s.data

/-- `os.path.join base p` (POSIX semantics): an absolute second argument
replaces the base, otherwise the two are concatenated with one separator. -/
def pathJoin (base p : String) : String :=
  if strStartsWith p "/" then p
  else if strEndsWith base "/" then base ++ p
  else base ++ "/" ++ p

/-- `safe_join` from server.py lines 24-29: join and normalise, then keep
the result only if its absolute form string-prefix-matches the root's
absolute form (`os.path.abspath(full_path).startswith(os.path.abspath(base))`).
`path.replace('/', os.sep)` is the identity under the `/`-separator model. -/
def safe_join (base path : String) : Option String :=
  let full_path := normpath (pathJoin base path)
  if strStartsWith (abspath full_path) (abspath base) then some full_path
  else none

/-- Modelled from the spec: the containment check of spec section 4.1 —
"the resulting absolute path's prefix equals the root's absolute path
exactly (component-wise, not a bare string prefix)".  Used only to compare
`safe_join`'s actual check against the specified one. -/
def withinRootComponents (base p : String) : Bool :=
  (normAbs (componentsRaw (abspath base))).isPrefixOf
    (normAbs (componentsRaw (abspath p)))

/-! ## Filesystem model

The server performs read-only filesystem access (`os.listdir`,
`os.path.isdir`, `os.path.isfile`, `os.path.getsize`, `open(...).read`).
A filesystem is an association list from absolute paths to nodes; a file's
size is the length of its content, so `getsize` is exact by construction.
OS permission errors are not modelled (the model has no permission bits).
-/

/-- A filesystem node: a directory, or a file with its byte content. -/
inductive Node where
  | dir : Node
  | file (content : List Nat) : Node
deriving DecidableEq

/-- A filesystem: absolute path to node. -/
abbrev FS := List (String × Node)

/-- `os.path.isfile` plus `open(..).read()`: the content of the regular
file at `p`, if any. -/
def fsFile (fs : FS) (p : String) : Option (List Nat) :=
  match fs.find? (fun e => e.1 == p) with
  | some (_, Node.file c) => some c
  | _ => none

/-- `os.path.isdir`. -/
def isDir (fs : FS) (p : String) : Bool :=
  match fs.find? (fun e => e.1 == p) with
  | some (_, Node.dir) => true
  | _ => false

/-! ## Directory listing (server.py lines 31-52)

`get_listing` sorts the raw `os.listdir` names (Python `sorted`, i.e.
code-point lexicographic order), stats each child, and only then appends
the `/` decoration to directory names.  `human_readable_size` is
floating-point presentation (spec section 1 places size formatting out of
scope), so a listing entry records the byte length that the code formats;
directory entries record no size (the code stores the empty string).
-/

/-- One entry of a listing response, with `size` the byte length the code
feeds to `human_readable_size` (`none` where the code stores `""`). -/
structure ListingEntry where
  name : String
  size : Option Nat
  is_dir : Bool
deriving DecidableEq

/-- Code-point lexicographic comparison of character lists: the order
Python `sorted` uses on the `os.listdir` name strings. -/
def listLe : List Char → List Char → Bool
  | [], _ => true
  | _ :: _, [] => false
  | a :: as, b :: bs =>
    if a.toNat < b.toNat then true
    else if b.toNat < a.toNat then false
    else listLe as bs

/-- String comparison by code points, as Python `<=` on `str`. -/
def strLe (s t : String) : Bool := listLe s.data t.data

/-- The sort order of `sorted(os.listdir(..))`, lifted to a child paired
with its node: compare the raw (undecorated) names. -/
def nameLe (a b : String × Node) : Prop := strLe a.1 b.1 = true

/-- Insert one child into a name-sorted list of children. -/
def orderedInsertByName (p : String × Node) : List (String × Node) → List (String × Node)
  | [] => [p]
  | q :: qs => if strLe p.1 q.1 then p :: q :: qs else q :: orderedInsertByName p qs

/-- `sorted` on the children of a directory, by raw name (insertion sort;
names inside one directory are distinct, so any stable/unstable sort by
this key agrees with Python's). -/
def sortChildren : List (String × Node) → List (String × Node)
  | [] => []
  | p :: ps => orderedInsertByName p (sortChildren ps)

/-- The body of the listing loop (server.py lines 40-48): decorate a
directory name with a trailing `/` and no size; give a file its exact byte
length. -/
def toEntry (p : String × Node) : ListingEntry :=
  match p.2 with
  | Node.dir => ⟨p.1 ++ "/", none, true⟩
  | Node.file c => ⟨p.1, some c.length, false⟩

/-- The `items` list that `get_listing` builds from a directory's children
(server.py lines 38-48): sort the raw names, then stat and decorate. -/
def get_listing_items (children : List (String × Node)) : List ListingEntry :=
  (sortChildren children).map toEntry

/-- A LIST response: a listing or an error message. -/
inductive ListResponse where
  | listing (items : List ListingEntry) : ListResponse
  | error (msg : String) : ListResponse
deriving DecidableEq

/-- The immediate children of directory `fp` in the filesystem: entries
whose path extends `fp` by exactly one further component, keyed by that
component (the `os.listdir` view). -/
def childNameOf (fp key : String) : Option String :=
  let pre := if strEndsWith fp "/" then fp else fp ++ "/"
  let rest := key.data.drop pre.data.length
  if pre.data.isPrefixOf key.data ∧ rest ≠ [] ∧ rest.all (fun c => ¬ (c = '/')) then
    some (String.mk rest)
  else none

/-- `os.listdir fp` paired with each child's node. -/
def childrenOf (fs : FS) (fp : String) : List (String × Node) :=
  fs.filterMap (fun e => (childNameOf fp e.1).map (fun n => (n, e.2)))

/-- `get_listing` from server.py lines 31-52: resolve through `safe_join`,
then require a directory, then list (the `PermissionError` branch has no
counterpart in the permissionless filesystem model). -/
def get_listing (fs : FS) (root path : String) : ListResponse :=
  match safe_join root path with
  | none => ListResponse.error "Access denied"
  | some fp =>
    if isDir fs fp then ListResponse.listing (get_listing_items (childrenOf fs fp))
    else ListResponse.error "Path not found"

/-! ## Server download path (server.py lines 77-91) -/

/-- The terminal marker `b'END\n'` the server sends after a file body. -/
def endMarker : List Nat := [69, 78, 68, 10]

/-- The `f.read(65536)` loop (server.py lines 85-90), with fuel bounded by
the remaining length: the successive chunks the server writes. -/
def sendChunksAux : Nat → List Nat → List (List Nat)
  | 0, _ => []
  | _ + 1, [] => []
  | n + 1, a :: as => ((a :: as).take 65536) :: sendChunksAux n ((a :: as).drop 65536)

/-- All bytes the server transmits after the `SIZE:` header for a file with
content `f`: the concatenated read chunks followed by `END\n`
(server.py line 91). -/
def serverSend (f : List Nat) : List Nat :=
  (sendChunksAux f.length f).flatten ++ endMarker

/-- The `DOWNLOAD` guard (server.py lines 78-80): path resolution composed
with the regular-file requirement; `none` exactly when the server answers
`ERROR: File not found or access denied`. -/
def downloadLookup (fs : FS) (root path : String) : Option (List Nat) :=
  (safe_join root path).bind (fsFile fs)

/-- What the server sends in response to one message. -/
inductive Resp where
  | raw (line : String) : Resp
  | listR (r : ListResponse) : Resp
  | sizeThenBody (header : String) (body : List Nat) : Resp
deriving DecidableEq

/-- The full response to a `DOWNLOAD` command (server.py lines 77-91). -/
def downloadResp (fs : FS) (root path : String) : Resp :=
  match downloadLookup fs root path with
  | none => Resp.raw "ERROR: File not found or access denied\n"
  | some c => Resp.sizeThenBody ("SIZE:" ++ toString c.length ++ "\n") (serverSend c)

/-! ## Client download loop (client.py lines 56-101)

After the `SIZE:` header, `Downloader._download` loops:
`while not self.cancelled and self.downloaded < self.total_size`, receives
a chunk, breaks on an empty receive, strips a trailing `END\n` from the
chunk if present, writes it, advances `downloaded`, and reports progress.
After the loop, the cancelled flag selects between deleting the file and
reporting completion (`update_progress(total, total)` plus the `Complete`
dialog); an exception during the loop jumps to the `except` handler, which
reports failure and deletes nothing.

A run is driven by a list of per-iteration inputs: a received chunk
(`chunk []` is an empty receive, i.e. the stream closed), a raised network
error, or the cancellation flag having been set before the loop-top check.
Exhausting the input list stands for the stream yielding nothing more.
-/

/-- One loop-top input to the download loop. -/
inductive Step where
  | chunk (c : List Nat) : Step
  | netError : Step
  | cancelNow : Step
deriving DecidableEq

/-- The terminal state of one download run. -/
inductive Outcome where
  | completed : Outcome
  | cancelled : Outcome
  | failed : Outcome
deriving DecidableEq

/-- The observable result of a run: terminal state, destination file bytes
left on disk (`none` when no file remains), and the successive
`update_progress` reports as `(downloaded, total)` pairs. -/
structure DLResult where
  outcome : Outcome
  fileDisk : Option (List Nat)
  reports : List (Nat × Nat)
deriving DecidableEq

/-- `if chunk.endswith(b'END\n'): chunk = chunk[:-4]` (client.py 84-85). -/
def stripEnd (c : List Nat) : List Nat :=
  if endMarker.isSuffixOf c then c.take (c.length - 4) else c

/-- The receive loop and its aftermath (client.py lines 79-97), from state
`downloaded = d`, written bytes `w`, reports so far `reps`. -/
def dlRun (total : Nat) (steps : List Step) (d : Nat) (w : List Nat)
    (reps : List (Nat × Nat)) : DLResult :=
  match steps with
  | [] => ⟨Outcome.completed, some w, reps ++ [(total, total)]⟩
  | Step.cancelNow :: _ => ⟨Outcome.cancelled, none, reps⟩
  | Step.netError :: _ =>
    if total ≤ d then ⟨Outcome.completed, some w, reps ++ [(total, total)]⟩
    else ⟨Outcome.failed, some w, reps⟩
  | Step.chunk c :: rest =>
    if total ≤ d then ⟨Outcome.completed, some w, reps ++ [(total, total)]⟩
    else if c = [] then ⟨Outcome.completed, some w, reps ++ [(total, total)]⟩
    else
      dlRun total rest (d + (stripEnd c).length) (w ++ stripEnd c)
        (reps ++ [(d + (stripEnd c).length, total)])

/-! ## Command-frame dispatch (server.py lines 57-91)

`handle_client` reads one newline-terminated frame, JSON-decodes it
(`json.loads`), answers `ERROR: Invalid JSON` on a decode error, and
otherwise reads `cmd['type']`.  A decoded value that is not an object, or
an object without a `'type'` key, makes `cmd['type']` raise; the exception
escapes to the outer `except` of `handle_client`, whose `finally` closes
the connection without sending anything.  A `'type'` that is neither
`'LIST'` nor `'DOWNLOAD'` falls through both branches: nothing is sent and
the loop reads the next frame.
-/

/-- A decoded JSON value (the fragment `json.loads` can produce). -/
inductive Json where
  | jnull : Json
  | jbool (b : Bool) : Json
  | jnum (n : Int) : Json
  | jstr (s : String) : Json
  | jarr (elems : List Json) : Json
  | jobj (fields : List (String × Json)) : Json

/-- `cmd[k]` on a decoded value: `none` models the raised
`KeyError`/`TypeError` (absent key, or not an object). -/
def jsonIndex (j : Json) (k : String) : Option Json :=
  match j with
  | Json.jobj fields => (fields.find? (fun f => f.1 == k)).map Prod.snd
  | _ => none

/-- `cmd.get k dflt`: only reached once `cmd[k']` has succeeded, so `cmd`
is an object; `none` models the raise on a non-object. -/
def jsonGetD (j : Json) (k : String) (dflt : Json) : Option Json :=
  match j with
  | Json.jobj fields => some (((fields.find? (fun f => f.1 == k)).map Prod.snd).getD dflt)
  | _ => none

/-- The server's reaction to one received frame: what it sent back (if
anything) and whether the connection is still open for further commands. -/
structure Reaction where
  sent : Option Resp
  connOpen : Bool
deriving DecidableEq

/-- One iteration of the `handle_client` loop on a decoded frame
(server.py lines 64-91); `none` stands for a frame `json.loads` rejected.
A non-string `'path'` raises inside `path.replace` in `safe_join`, which
also kills the handler. -/
def handleFrame (fs : FS) (root : String) (frame : Option Json) : Reaction :=
  match frame with
  | none => ⟨some (Resp.raw "ERROR: Invalid JSON\n"), true⟩
  | some cmd =>
    match jsonIndex cmd "type" with
    | none => ⟨none, false⟩
    | some (Json.jstr "LIST") =>
      match jsonGetD cmd "path" (Json.jstr "/") with
      | some (Json.jstr p) => ⟨some (Resp.listR (get_listing fs root p)), true⟩
      | _ => ⟨none, false⟩
    | some (Json.jstr "DOWNLOAD") =>
      match jsonGetD cmd "path" (Json.jstr "") with
      | some (Json.jstr p) => ⟨some (downloadResp fs root p), true⟩
      | _ => ⟨none, false⟩
    | some _ => ⟨none, true⟩

/-! ## Client-side session registry (client.py lines 220-294)

`ClientGUI.start_download` runs `self.downloaders[remote_path] = downloader`
and `self.progress_widgets[remote_path] = {..}`: plain dict assignment,
keyed by the remote path.  A dict is an association list with unique keys;
assignment replaces the binding in place or appends a fresh one.
-/

/-- Python dict assignment `r[k] = v`. -/
def dictInsert (k : String) (v : Nat) : List (String × Nat) → List (String × Nat)
  | [] => [(k, v)]
  | (k2, v2) :: r => if k2 = k then (k, v) :: r else (k2, v2) :: dictInsert k v r

/-- Python dict lookup `r[k]` / `k in r`. -/
def dictLookup (k : String) (r : List (String × Nat)) : Option Nat :=
  (r.find? (fun e => e.1 == k)).map Prod.snd

/-- `start_download`'s registry effect (client.py line 231): bind the
remote path to the new session. -/
def startDownload (reg : List (String × Nat)) (rp : String) (sess : Nat) :
    List (String × Nat) :=
  dictInsert rp sess reg

/-- Claim C1: `safe_join` is claimed to reject every path whose normalised
absolute form lies outside the root, component-wise, so that a sibling
directory sharing a bare string prefix with the root is rejected.  The code
disagrees: with root `/share`, the logical path `../share-other` normalises
to the sibling `/share-other`, which passes the bare `startswith` check and
is returned, although component-wise it lies outside the root. -/
theorem C1_sibling_prefix_escape :
    safe_join "/share" "../share-other" = some "/share-other"
    ∧ withinRootComponents "/share" "/share-other" = false := by
  constructor <;> rfl

/-- Concatenating the read chunks reproduces the file content. -/
theorem sendChunksAux_join (n : Nat) :
    ∀ l : List Nat, l.length ≤ n → (sendChunksAux n l).flatten = l := by
  induction n with
  | zero =>
    intro l h
    have : l = [] := List.eq_nil_of_length_eq_zero (Nat.le_zero.mp h)
    subst this; rfl
  | succ n ih =>
    intro l h
    cases l with
    | nil => rfl
    | cons a as =>
      simp only [sendChunksAux, List.flatten]
      rw [ih]
      · exact List.take_append_drop 65536 (a :: as)
      · simp only [List.length_drop, List.length_cons] at *
        omega

/-- Claim C3: after the `SIZE:<n>` header the server is claimed to transmit
exactly `n` bytes and nothing else before the next command.  The code
instead transmits the `n` body bytes followed by the 4-byte marker `END\n`,
so `n + 4` bytes in total. -/
theorem C3_server_appends_marker (f : List Nat) :
    serverSend f = f ++ endMarker
    ∧ (serverSend f).length = f.length + 4
    ∧ (serverSend f).length ≠ f.length := by
  have h : serverSend f = f ++ endMarker := by
    unfold serverSend
    rw [sendChunksAux_join f.length f (Nat.le_refl _)]
  refine ⟨h, ?_, ?_⟩
  · rw [h]; simp [endMarker]
  · rw [h]; simp [endMarker]

/-- Claim C2: a completed download is claimed to reproduce the source bytes
exactly, the receiver never stripping a trailing marker.  The code strips
`END\n` from any received chunk that happens to end with it
(client.py 84-85): for the 5-byte source file `AEND\n`, when the server's
transmission arrives as the body in one receive and the marker in the next,
the client strips the file's own tail and writes only `A`. -/
theorem C2_trailing_marker_corruption :
    serverSend [65, 69, 78, 68, 10] = [65, 69, 78, 68, 10] ++ endMarker
    ∧ dlRun 5 [Step.chunk [65, 69, 78, 68, 10], Step.chunk endMarker] 0 [] []
        = ⟨Outcome.completed, some [65], [(1, 5), (1, 5), (5, 5)]⟩
    ∧ (some [65] : Option (List Nat)) ≠ some [65, 69, 78, 68, 10] := by
  refine ⟨?_, by decide, by decide⟩
  exact (C3_server_appends_marker [65, 69, 78, 68, 10]).1

/-- Claim C4: when the stream ends (an empty receive) before `downloaded`
reaches `totalSize`, the session is claimed to end Failed and not report
success.  The code instead leaves the loop, takes the non-cancelled branch,
forces a final `total / total` progress report and shows the `Complete`
dialog: with `totalSize = 4` and a single received byte, the run ends
`completed` with the bogus final report `(4, 4)`. -/
theorem C4_truncation_reported_complete :
    dlRun 4 [Step.chunk [65], Step.chunk []] 0 [] []
      = ⟨Outcome.completed, some [65], [(1, 4), (4, 4)]⟩
    ∧ Outcome.completed ≠ Outcome.failed ∧ 1 < 4 := by
  refine ⟨by decide, by decide, by decide⟩

/-- A download that fails mid-transfer keeps its partial output: a network
error after one received byte ends in `failed` with the 1-byte file still
on disk (the `except` handler of client.py lines 98-99 deletes nothing;
only the cancellation branch at line 93-94 removes the file). -/
theorem C5_failed_retains_file :
    dlRun 4 [Step.chunk [65], Step.netError] 0 [] []
      = ⟨Outcome.failed, some [65], [(1, 4)]⟩
    ∧ (some [65] : Option (List Nat)) ≠ none := by
  refine ⟨by decide, by decide⟩

/-- Claim C5 (amended): a download that ends in the Cancelled state leaves
no partial destination file (the cancellation branch removes the file); a
download that ends Failed through an exception during transfer retains its
partial output. -/
theorem C5_cancel_removes_file (total : Nat) (steps : List Step) (d : Nat)
    (w : List Nat) (reps : List (Nat × Nat))
    (h : (dlRun total steps d w reps).outcome = Outcome.cancelled) :
    (dlRun total steps d w reps).fileDisk = none := by
  induction steps generalizing d w reps with
  | nil => simp [dlRun] at h
  | cons s rest ih =>
    cases s with
    | cancelNow => simp [dlRun]
    | netError =>
      by_cases h1 : total ≤ d <;> simp [dlRun, h1] at h
    | chunk c =>
      by_cases h1 : total ≤ d
      · simp [dlRun, h1] at h
      · by_cases h2 : c = []
        · simp [dlRun, h1, h2] at h
        · simp only [dlRun, if_neg h1, if_neg h2] at h ⊢
          exact ih _ _ _ h

/-- Witness for `C5_cancel_removes_file`: cancelling after one received
byte ends in the Cancelled state with no file left. -/
theorem C5_cancel_removes_file_witness :
    (dlRun 4 [Step.chunk [65], Step.cancelNow] 0 [] []).outcome = Outcome.cancelled
    ∧ (dlRun 4 [Step.chunk [65], Step.cancelNow] 0 [] []).fileDisk = none :=
  ⟨by decide, C5_cancel_removes_file 4 [Step.chunk [65], Step.cancelNow] 0 [] [] (by decide)⟩

/-- Claim C6: `downloaded` is claimed never to exceed the header-declared
total, whatever the receive segmentation.  For the 2-byte file `AB` the
server transmits `AB` + `END\n`; when the first receive returns the 4 bytes
`ABEN` (not a marker suffix, so nothing is stripped), the code counts all 4
into `downloaded`, reporting `(4, 2)` — above the total — and then forces
the final `(2, 2)` report, which also breaks monotonicity. -/
theorem C6_downloaded_exceeds_total :
    serverSend [65, 66] = [65, 66] ++ endMarker
    ∧ [65, 66, 69, 78] ++ [68, 10] = [65, 66] ++ endMarker
    ∧ dlRun 2 [Step.chunk [65, 66, 69, 78], Step.chunk [68, 10]] 0 [] []
        = ⟨Outcome.completed, some [65, 66, 69, 78], [(4, 2), (2, 2)]⟩
    ∧ 2 < 4 := by
  refine ⟨(C3_server_appends_marker [65, 66]).1, by decide, by decide, by decide⟩

/-- Claim C7 counterexample: the valid-JSON frame `{}` has no `'type'`
field; the handler raises, sends nothing, and the connection closes —
not an error response on a connection that stays open. -/
theorem C7_missing_type_closes :
    (handleFrame [] "/share" (some (Json.jobj []))).sent = none
    ∧ (handleFrame [] "/share" (some (Json.jobj []))).connOpen = false := by
  exact ⟨rfl, rfl⟩

/-- Claim C7 (amended): a frame that fails JSON decoding gets the
`ERROR: Invalid JSON` response and the connection stays open for further
commands; a decodable JSON record lacking a `'type'` field terminates the
connection without any response. -/
theorem C7_frame_handling (fs : FS) (root : String) :
    handleFrame fs root none = ⟨some (Resp.raw "ERROR: Invalid JSON\n"), true⟩
    ∧ handleFrame fs root (some (Json.jobj [])) = ⟨none, false⟩ :=
  ⟨rfl, rfl⟩

/-- Looking up the key just assigned yields the assigned value. -/
theorem dictLookup_dictInsert (k : String) (v : Nat) (r : List (String × Nat)) :
    dictLookup k (dictInsert k v r) = some v := by
  induction r with
  | nil => simp [dictInsert, dictLookup]
  | cons e r ih =>
    by_cases h : e.1 = k
    · simp [dictInsert, dictLookup, h]
    · simp only [dictInsert, if_neg h]
      unfold dictLookup at ih ⊢
      rw [List.find?_cons_of_neg _ (by simp [h])]
      exact ih

/-- Each key bound at most once survives an assignment as exactly once. -/
theorem countKey_dictInsert (k : String) (v : Nat) (r : List (String × Nat))
    (h : r.countP (fun e => e.1 == k) ≤ 1) :
    (dictInsert k v r).countP (fun e => e.1 == k) = 1 := by
  induction r with
  | nil => simp [dictInsert]
  | cons e r ih =>
    by_cases he : e.1 = k
    · simp only [dictInsert, if_pos he]
      simp [List.countP_cons, he] at h ⊢
      exact h
    · simp only [dictInsert, if_neg he]
      simp [List.countP_cons, he] at h ⊢
      exact ih h

/-- Key multiplicity in a dict is bounded by one when its key list has no
duplicates. -/
theorem countKey_le_one_of_nodup (k : String) (r : List (String × Nat))
    (h : (r.map Prod.fst).Nodup) : r.countP (fun e => e.1 == k) ≤ 1 := by
  induction r with
  | nil => simp
  | cons e r ih =>
    simp only [List.map_cons, List.nodup_cons] at h
    by_cases he : e.1 = k
    · have hz : r.countP (fun e => e.1 == k) = 0 := by
        rw [List.countP_eq_zero]
        intro a ha
        simp only [beq_iff_eq]
        intro hk
        apply h.1
        have hea : e.1 = a.1 := he.trans hk.symm
        rw [hea]
        exact List.mem_map_of_mem Prod.fst ha
      simp [List.countP_cons, he, hz]
    · simp only [List.countP_cons]
      simp [he]
      exact ih h.2

/-- Claim C9: in the client's registry each remote path maps to at most one
downloader; starting a second download for the same remote path overwrites
the registry entry, so lookups (progress updates, cancellation) reach only
the later session, and the path stays bound exactly once. -/
theorem C9_registry_overwrite (reg : List (String × Nat)) (rp : String)
    (s1 s2 : Nat) (h : (reg.map Prod.fst).Nodup) :
    dictLookup rp (startDownload (startDownload reg rp s1) rp s2) = some s2
    ∧ (startDownload (startDownload reg rp s1) rp s2).countP (fun e => e.1 == rp) = 1 := by
  unfold startDownload
  constructor
  · exact dictLookup_dictInsert rp s2 _
  · have h1 := countKey_dictInsert rp s1 reg (countKey_le_one_of_nodup rp reg h)
    exact countKey_dictInsert rp s2 _ (by omega)

/-- Witness for `C9_registry_overwrite` on a concrete registry. -/
theorem C9_registry_overwrite_witness :
    (([("/a", 7)] : List (String × Nat)).map Prod.fst).Nodup
    ∧ (dictLookup "/b" (startDownload (startDownload [("/a", 7)] "/b" 3) "/b" 4) = some 4
       ∧ (startDownload (startDownload [("/a", 7)] "/b" 3) "/b" 4).countP
           (fun e => e.1 == "/b") = 1) :=
  ⟨by decide, C9_registry_overwrite [("/a", 7)] "/b" 3 4 (by decide)⟩

/-- Claim C10: every failing `DOWNLOAD` request — path escaping the root,
path not present, or path denoting a directory — is answered with the one
header `ERROR: File not found or access denied`, so two failing requests
are indistinguishable from the responses alone. -/
theorem C10_indistinguishable_errors (fs1 fs2 : FS) (root1 root2 path1 path2 : String)
    (h1 : downloadLookup fs1 root1 path1 = none)
    (h2 : downloadLookup fs2 root2 path2 = none) :
    downloadResp fs1 root1 path1 = Resp.raw "ERROR: File not found or access denied\n"
    ∧ downloadResp fs1 root1 path1 = downloadResp fs2 root2 path2 := by
  unfold downloadResp
  rw [h1, h2]
  exact ⟨rfl, rfl⟩

/-- Witness for `C10_indistinguishable_errors`: a root-escaping request and
a directory request against the same share draw the identical error. -/
theorem C10_indistinguishable_errors_witness :
    downloadLookup [("/share/d", Node.dir)] "/share" "../x" = none
    ∧ downloadLookup [("/share/d", Node.dir)] "/share" "d" = none
    ∧ (downloadResp [("/share/d", Node.dir)] "/share" "../x"
         = Resp.raw "ERROR: File not found or access denied\n"
       ∧ downloadResp [("/share/d", Node.dir)] "/share" "../x"
         = downloadResp [("/share/d", Node.dir)] "/share" "d") :=
  ⟨by decide, by decide,
   C10_indistinguishable_errors [("/share/d", Node.dir)] [("/share/d", Node.dir)]
     "/share" "/share" "../x" "d" (by decide) (by decide)⟩

/-- The code-point order is total. -/
theorem listLe_total (a : List Char) : ∀ b : List Char,
    listLe a b = true ∨ listLe b a = true := by
  induction a with
  | nil => intro b; left; rfl
  | cons x xs ih =>
    intro b
    cases b with
    | nil => right; rfl
    | cons y ys =>
      by_cases h1 : x.toNat < y.toNat
      · left; simp [listLe, h1]
      · by_cases h2 : y.toNat < x.toNat
        · right; simp [listLe, h2]
        · rcases ih ys with h | h
          · left; simp [listLe, h1, h2, h]
          · right; simp [listLe, h1, h2, h]

/-- The code-point order is transitive. -/
theorem listLe_trans (a : List Char) : ∀ b c : List Char,
    listLe a b = true → listLe b c = true → listLe a c = true := by
  induction a with
  | nil => intro b c h1 h2; rfl
  | cons x xs ih =>
    intro b c h1 h2
    cases b with
    | nil => simp [listLe] at h1
    | cons y ys =>
      cases c with
      | nil => simp [listLe] at h2
      | cons z zs =>
        by_cases hxy : x.toNat < y.toNat
        · by_cases hyz : y.toNat < z.toNat
          · have hxz : x.toNat < z.toNat := Nat.lt_trans hxy hyz
            simp [listLe, hxz]
          · by_cases hzy : z.toNat < y.toNat
            · simp [listLe, hyz, hzy] at h2
            · have hxz : x.toNat < z.toNat := by omega
              simp [listLe, hxz]
        · by_cases hyx : y.toNat < x.toNat
          · simp [listLe, hxy, hyx] at h1
          · by_cases hyz : y.toNat < z.toNat
            · have hxz : x.toNat < z.toNat := by omega
              simp [listLe, hxz]
            · by_cases hzy : z.toNat < y.toNat
              · simp [listLe, hyz, hzy] at h2
              · have h1x : listLe xs ys = true := by simpa [listLe, hxy, hyx] using h1
                have h2x : listLe ys zs = true := by simpa [listLe, hyz, hzy] using h2
                have hxz1 : ¬ x.toNat < z.toNat := by omega
                have hxz2 : ¬ z.toNat < x.toNat := by omega
                simpa [listLe, hxz1, hxz2] using ih ys zs h1x h2x

/-- Totality of the string order. -/
theorem strLe_total (s t : String) : strLe s t = true ∨ strLe t s = true :=
  listLe_total s.data t.data

/-- Transitivity of the string order. -/
theorem strLe_trans {s t u : String} (h1 : strLe s t = true)
    (h2 : strLe t u = true) : strLe s u = true :=
  listLe_trans s.data t.data u.data h1 h2

/-- Membership in an ordered insertion. -/
theorem mem_orderedInsertByName (p x : String × Node) (l : List (String × Node)) :
    x ∈ orderedInsertByName p l ↔ x = p ∨ x ∈ l := by
  induction l with
  | nil => simp [orderedInsertByName]
  | cons q qs ih =>
    by_cases h : strLe p.1 q.1 = true
    · simp [orderedInsertByName, h, List.mem_cons]
    · simp [orderedInsertByName, h, List.mem_cons, ih]
      tauto

/-- Ordered insertion preserves sortedness by raw name. -/
theorem pairwise_orderedInsertByName (p : String × Node) (l : List (String × Node))
    (hl : List.Pairwise nameLe l) :
    List.Pairwise nameLe (orderedInsertByName p l) := by
  induction l with
  | nil => simp [orderedInsertByName, nameLe]
  | cons q qs ih =>
    rcases List.pairwise_cons.mp hl with ⟨hq, hqs⟩
    by_cases h : strLe p.1 q.1 = true
    · simp only [orderedInsertByName, if_pos h]
      refine List.Pairwise.cons ?_ hl
      intro x hx
      rcases List.mem_cons.mp hx with rfl | hx2
      · exact h
      · exact strLe_trans h (hq x hx2)
    · simp only [orderedInsertByName, if_neg h]
      refine List.Pairwise.cons ?_ (ih hqs)
      intro x hx
      rcases (mem_orderedInsertByName p x qs).mp hx with rfl | hx2
      · rcases strLe_total x.1 q.1 with h1 | h1
        · exact absurd h1 h
        · exact h1
      · exact hq x hx2

/-- The listing sort is sorted by raw name. -/
theorem pairwise_sortChildren (l : List (String × Node)) :
    List.Pairwise nameLe (sortChildren l) := by
  induction l with
  | nil => exact List.Pairwise.nil
  | cons p ps ih => exact pairwise_orderedInsertByName p _ ih

/-- The listing sort permutes the children: same membership. -/
theorem mem_sortChildren (x : String × Node) (l : List (String × Node)) :
    x ∈ sortChildren l ↔ x ∈ l := by
  induction l with
  | nil => simp [sortChildren]
  | cons p ps ih =>
    simp [sortChildren, mem_orderedInsertByName, ih, List.mem_cons]

/-- Claim C8 counterexample: the listing is claimed to be sorted by the
returned name, trailing `/` included.  The code sorts the raw names first
and appends `/` afterwards: a directory `a` and a file `a!` come back in
the order `a/`, `a!`, although `a!` orders strictly before `a/`
(`!` is code point 33, `/` is 47). -/
theorem C8_not_sorted_by_returned_name :
    (get_listing_items [("a!", Node.file [1, 2, 3, 4, 5]), ("a", Node.dir)]).map
        ListingEntry.name = ["a/", "a!"]
    ∧ strLe "a/" "a!" = false := by
  constructor <;> rfl

/-- Claim C8 (amended): listing entries are sorted by the raw child name,
before the `/` decoration is appended to directory names (order by the
returned decorated name can be violated); every directory entry carries no
size; every file entry's size is the file's exact byte length at listing
time. -/
theorem C8_listing_properties (children : List (String × Node)) :
    List.Pairwise nameLe (sortChildren children)
    ∧ (∀ e ∈ get_listing_items children, e.is_dir = true → e.size = none)
    ∧ (∀ e ∈ get_listing_items children, e.is_dir = false →
        ∃ p ∈ children, ∃ c, p.2 = Node.file c ∧ e.name = p.1 ∧ e.size = some c.length) := by
  refine ⟨pairwise_sortChildren children, ?_, ?_⟩
  · intro e he hd
    rcases List.mem_map.mp he with ⟨p, hp, rfl⟩
    cases hn : p.2 with
    | dir => simp [toEntry, hn]
    | file c => simp [toEntry, hn] at hd
  · intro e he hd
    rcases List.mem_map.mp he with ⟨p, hp, rfl⟩
    cases hn : p.2 with
    | dir => simp [toEntry, hn] at hd
    | file c =>
      refine ⟨p, (mem_sortChildren p children).mp hp, c, hn, ?_, ?_⟩ <;>
        simp [toEntry, hn]

/-- Witness for `C8_listing_properties`: the single directory `d` appears
as the entry `d/` with no size. -/
theorem C8_listing_properties_witness :
    (⟨"d/", none, true⟩ : ListingEntry) ∈ get_listing_items [("d", Node.dir)]
    ∧ (⟨"d/", none, true⟩ : ListingEntry).size = none :=
  ⟨by decide,
   (C8_listing_properties [("d", Node.dir)]).2.1 ⟨"d/", none, true⟩ (by decide) (by decide)⟩
